import Mathlib

/-!
Verification development for the `stock-future` repository.

The subject is the event-driven backtest engine in `src/strategy/strat_temp.py`
(`calc_atr`, `run_backtest`) together with the configuration defaults of the
vectorised variant in `src/backtest/vbt.py`.

Modelling conventions (shallow embedding of the Python/pandas code):
* A pandas DataFrame of OHLCV rows becomes `List Bar`; prices are `ℚ`
  (the Python floats are used exactly, with no rounding in the engine).
* A pandas numeric series with NaN entries becomes a function `ℕ → Option ℚ`;
  `none` stands for NaN.  `s.rolling(w).mean()` is NaN until `w` observations
  have accumulated (`min_periods` defaults to the window), and a pandas
  comparison (`>`, `<=`, `<`) involving NaN is `False` — both semantics are
  made explicit below (`rollingMean`, `optGT`, `crossAbove`, `stopHit`).
* The backtest loop `for i in range(ma_slow, len(df))` becomes a fold of
  `processBar` over `List.range' ma_slow (len - ma_slow)`; `backtestState`
  exposes every intermediate loop state so that transition properties can be
  stated per bar index.
* The Chinese exit-reason strings 止损 / 趋势反转 of the source are modelled
  by the enumeration `ExitReason.stopLoss` / `ExitReason.trendReversal`.
-/

unseal Rat.add Rat.mul Rat.inv Rat.sub

namespace StockFuture

/-- One OHLCV row of the input DataFrame (columns: date, open, high, low,
close, volume).  Dates are modelled as integers; the input contract says they
are strictly increasing per instrument. -/
structure Bar where
  date : ℤ
  open_px : ℚ
  high : ℚ
  low : ℚ
  close : ℚ
  volume : ℕ
deriving Repr, DecidableEq, Inhabited

/-- The `close` column of the DataFrame. -/
def closes (df : List Bar) : List ℚ :=
  df.map Bar.close

/-- Entry `i` of `xs.rolling(window).mean()` in pandas: the arithmetic mean of
`xs[i-window+1 .. i]` once `window` observations exist, NaN (`none`) before
that.  pandas accepts `window = 0` (only negative windows raise) and a
zero-window mean is NaN everywhere, which the `1 ≤ window` guard reproduces. -/
def rollingMean (xs : List ℚ) (window i : ℕ) : Option ℚ :=
  if 1 ≤ window ∧ window ≤ i + 1 ∧ i < xs.length then
    some (((xs.take (i + 1)).drop (i + 1 - window)).sum / (window : ℚ))
  else none

/-- The moving-average columns `df["ma_fast"]` / `df["ma_slow"]` of
`run_backtest` (strat_temp.py lines 55-56): a rolling mean of the closes. -/
def ma (df : List Bar) (window i : ℕ) : Option ℚ :=
  rollingMean (closes df) window i

/-- True range at bar `i` (strat_temp.py `calc_atr`, lines 32-35):
`max(high - low, |high - prev_close|, |low - prev_close|)`.  At `i = 0` the
shifted close is NaN, so the row-wise `max` (which skips NaN) degenerates to
`high - low`. -/
def true_range (df : List Bar) (i : ℕ) : ℚ :=
  let b := df.getD i default
  if i = 0 then b.high - b.low
  else
    let p := df.getD (i - 1) default
    max (b.high - b.low) (max |b.high - p.close| |b.low - p.close|)

/-- The whole true-range series of a DataFrame. -/
def trSeries (df : List Bar) : List ℚ :=
  (List.range df.length).map (true_range df)

/-- `calc_atr` (strat_temp.py line 37): plain rolling mean of the true range
over `period` bars — NaN until `period` true-range values exist. -/
def calc_atr (df : List Bar) (period i : ℕ) : Option ℚ :=
  rollingMean (trSeries df) period i

/-- pandas `>` on two possibly-NaN values: `False` whenever either side is
NaN. -/
def optGT : Option ℚ → Option ℚ → Bool
  | some a, some b => decide (b < a)
  | _, _ => false

/-- The `df["uptrend"]` column (strat_temp.py line 60):
`ma_fast > ma_slow`, with NaN comparing as `False`. -/
def uptrend (df : List Bar) (maF maS i : ℕ) : Bool :=
  optGT (ma df maF i) (ma df maS i)

/-- The chained comparison `prev["close"] <= prev["ma_fast"] < row["close"]`
of strat_temp.py line 73.  `prev["ma_fast"]` may be NaN, in which case both
comparisons are `False`. -/
def crossAbove (df : List Bar) (maF i : ℕ) : Bool :=
  match ma df maF (i - 1) with
  | none => false
  | some m =>
      decide ((df.getD (i - 1) default).close ≤ m) &&
      decide (m < (df.getD i default).close)

/-- The full entry condition of strat_temp.py line 73:
`row["uptrend"] and prev["close"] <= prev["ma_fast"] < row["close"]`. -/
def entrySignal (df : List Bar) (maF maS i : ℕ) : Bool :=
  uptrend df maF maS i && crossAbove df maF i

/-- Exit reasons; the source uses the strings 止损 (stop-loss) and 趋势反转
(trend reversal). -/
inductive ExitReason where
  | stopLoss
  | trendReversal
deriving Repr, DecidableEq

/-- The open-position record of strat_temp.py lines 74-78.  `stop_loss` is
`close - atr_multiplier * atr`; it is NaN (`none`) when the ATR at the entry
bar is still NaN. -/
structure Position where
  entry_date : ℤ
  entry_price : ℚ
  stop_loss : Option ℚ
deriving Repr, DecidableEq

/-- One row of the returned trade ledger (strat_temp.py lines 96-103). -/
structure Trade where
  entry_date : ℤ
  entry_price : ℚ
  exit_date : ℤ
  exit_price : ℚ
  pnl_pct : ℚ
  reason : ExitReason
deriving Repr, DecidableEq

/-- The stop-loss test `row["low"] <= position["stop_loss"]` of line 85; a
comparison against a NaN stop level is `False`. -/
def stopHit (lowPx : ℚ) : Option ℚ → Bool
  | some s => decide (lowPx ≤ s)
  | none => false

/-- Loop state of `run_backtest`: the current position slot and the trade
list accumulated so far. -/
structure EngineState where
  position : Option Position
  trades : List Trade
deriving Repr, DecidableEq

/-- The trade record appended on exit (strat_temp.py lines 95-103), including
`pnl_pct = (exit_price - entry_price) / entry_price * 100`. -/
def mkTrade (pos : Position) (d : ℤ) (price : ℚ) (r : ExitReason) : Trade :=
  { entry_date := pos.entry_date
    entry_price := pos.entry_price
    exit_date := d
    exit_price := price
    pnl_pct := (price - pos.entry_price) / pos.entry_price * 100
    reason := r }

/-- One iteration of the backtest loop (strat_temp.py lines 66-104) at bar
index `i`.  Flat: open a position when `entrySignal` fires, recording entry
date/price and `stop_loss = close - atr_multiplier * atr`.  Long: first check
the stop (exit at exactly the stored stop level), else check trend reversal
(`prev["uptrend"] and not row["uptrend"]`, exit at the close), else hold.
The `getD 0` for the stop price is only reached when `stopHit` returned
`true`, which forces `stop_loss = some s`. -/
def processBar (df : List Bar) (maF maS period : ℕ) (mult : ℚ)
    (s : EngineState) (i : ℕ) : EngineState :=
  let row := df.getD i default
  match s.position with
  | none =>
      if entrySignal df maF maS i then
        let pos : Position :=
          { entry_date := row.date
            entry_price := row.close
            stop_loss := (calc_atr df period i).map
              (fun a => row.close - mult * a) }
        { s with position := some pos }
      else s
  | some pos =>
      if stopHit row.low pos.stop_loss then
        { position := none
          trades := s.trades ++ [mkTrade pos row.date (pos.stop_loss.getD 0) .stopLoss] }
      else if uptrend df maF maS (i - 1) && !uptrend df maF maS i then
        { position := none
          trades := s.trades ++ [mkTrade pos row.date row.close .trendReversal] }
      else s

/-- The initial loop state: no position, empty ledger. -/
def initState : EngineState :=
  { position := none, trades := [] }

/-- The loop state after processing the bar indices of
`range(ma_slow, len(df))` that are below `upTo`: the fold of `processBar`
over `[maS, min upTo len)`.  At `upTo = df.length` this is the final state. -/
def backtestState (df : List Bar) (maF maS period : ℕ) (mult : ℚ)
    (upTo : ℕ) : EngineState :=
  (List.range' maS (min upTo df.length - maS)).foldl
    (processBar df maF maS period mult) initState

/-- `run_backtest` of strat_temp.py (lines 40-106), for positive window
parameters: the trade ledger produced by running the loop over the whole
DataFrame.  Any position still open after the last bar is simply dropped. -/
def run_backtest (df : List Bar) (ma_fast ma_slow atr_period : ℕ)
    (atr_multiplier : ℚ) : List Trade :=
  (backtestState df ma_fast ma_slow atr_period atr_multiplier df.length).trades

/-- The one failure `run_backtest` can raise before its bar loop: pandas
`rolling(w)` raises `ValueError` (window must be an integer 0 or greater)
when `w` is negative. -/
inductive ValueError where
  | windowNegative
deriving Repr, DecidableEq

/-- `run_backtest` with the window parameters as unrestricted integers, as in
Python.  pandas `rolling` raises `ValueError` for a negative window — for
negative `ma_fast`/`ma_slow`/`atr_period` the call therefore fails at lines
55-57, before the bar loop; this is the `.error` branch.  A zero window is
accepted by pandas and yields an all-NaN column (so a zero MA window produces
no trades, and a zero ATR period gives every position a NaN stop); `toNat`
together with `rollingMean`'s `1 ≤ window` guard reproduces this. -/
def run_backtest_checked (df : List Bar) (ma_fast ma_slow atr_period : ℤ)
    (atr_multiplier : ℚ) : Except ValueError (List Trade) :=
  if ma_fast < 0 ∨ ma_slow < 0 ∨ atr_period < 0 then
    .error .windowNegative
  else
    .ok (run_backtest df ma_fast.toNat ma_slow.toNat atr_period.toNat atr_multiplier)

/-- Default `ma_fast` of strat_temp.py `run_backtest` (line 42). -/
def default_ma_fast : ℕ := 5

/-- Default `ma_slow` of strat_temp.py `run_backtest` (line 43). -/
def default_ma_slow : ℕ := 20

/-- Default `atr_period` of strat_temp.py `run_backtest` (line 44). -/
def default_atr_period : ℕ := 14

/-- Default `atr_multiplier` of strat_temp.py `run_backtest` (line 45). -/
def default_atr_multiplier : ℚ := 2

namespace Vbt

/-- Default `ma_fast` of vbt.py `run_backtest` (line 37). -/
def default_ma_fast : ℕ := 20

/-- Default `ma_slow` of vbt.py `run_backtest` (line 38). -/
def default_ma_slow : ℕ := 60

/-- Default `atr_period` of vbt.py `run_backtest` (line 39). -/
def default_atr_period : ℕ := 14

/-- Default `atr_multiplier` of vbt.py `run_backtest` (line 40). -/
def default_atr_multiplier : ℚ := 2

end Vbt

/-- The input contract of the data source: dates strictly increase with the
bar index. -/
def DatesStrictMono (df : List Bar) : Prop :=
  ∀ j < df.length, ∀ i < j,
    (df.getD i default).date < (df.getD j default).date

instance (df : List Bar) : Decidable (DatesStrictMono df) := by
  unfold DatesStrictMono
  infer_instance

/-- Shorthand for building a bar with zero volume in concrete scenarios. -/
def mkBar (d : ℤ) (o h l c : ℚ) : Bar :=
  ⟨d, o, h, l, c, 0⟩

/-- Four bars with parameters `ma_fast = 1`, `ma_slow = 2`, `atr_period = 1`,
`atr_multiplier = 2` in mind: flat, flat, breakout (entry at bar 2 with stop
90), then a falling close that flips the trend (reversal exit at bar 3). -/
def dfRev : List Bar :=
  [mkBar 0 100 100 100 100, mkBar 1 100 100 100 100,
   mkBar 2 110 110 110 110, mkBar 3 99 99 99 99]

/-- Same as `dfRev` except bar 3 also trades down through the stop level
(low 85 ≤ stop 90), so stop-loss and trend reversal fire on the same bar. -/
def dfStop : List Bar :=
  [mkBar 0 100 100 100 100, mkBar 1 100 100 100 100,
   mkBar 2 110 110 110 110, mkBar 3 99 99 85 99]

/-- The first three bars of `dfRev`: the sequence ends right after the entry,
leaving the position open. -/
def dfOpen : List Bar :=
  [mkBar 0 100 100 100 100, mkBar 1 100 100 100 100,
   mkBar 2 110 110 110 110]

/-- A single bar with `high - low = 6`, for the ATR edge case. -/
def dfSingle : List Bar :=
  [mkBar 0 100 100 94 95]

/-- The date of bar `i`. -/
def dateAt (df : List Bar) (i : ℕ) : ℤ :=
  (df.getD i default).date

/-- Loop invariant for the ordering properties, at the point where the bars
of `[ma_slow, i)` have been processed: every recorded trade exits strictly
after it entered, consecutive trades do not overlap, every recorded exit
predates every still-unprocessed bar, and an open position entered strictly
before every unprocessed bar and strictly after every recorded exit. -/
def OrderInv (df : List Bar) (i : ℕ) (s : EngineState) : Prop :=
  (∀ t ∈ s.trades, t.entry_date < t.exit_date) ∧
  List.Chain' (fun a b => a.exit_date < b.entry_date) s.trades ∧
  (∀ t ∈ s.trades, ∀ j, i ≤ j → j < df.length → t.exit_date < dateAt df j) ∧
  (∀ p, s.position = some p →
    (∀ j, i ≤ j → j < df.length → p.entry_date < dateAt df j) ∧
    (∀ t ∈ s.trades, t.exit_date < p.entry_date))

/-- Bar `i` closes a position: the loop state holds a position before bar `i`
and none after it. -/
def closesAt (df : List Bar) (maF maS period : ℕ) (mult : ℚ) (i : ℕ) : Bool :=
  (backtestState df maF maS period mult i).position.isSome &&
  !(backtestState df maF maS period mult (i + 1)).position.isSome

/-- The names of the indicator columns `run_backtest` adds to its private
copy of the DataFrame (strat_temp.py lines 55-60). -/
inductive ColName where
  | ma_fast
  | ma_slow
  | atr
  | uptrend
deriving Repr, DecidableEq

/-- A pandas DataFrame as the engine sees it: the OHLCV rows plus any derived
columns added by column assignment.  Caller-supplied frames carry no derived
columns. -/
structure DataFrame where
  bars : List Bar
  numericCols : List (ColName × List (Option ℚ))
  boolCols : List (ColName × List Bool)
deriving Repr, DecidableEq

/-- `df.copy()` (strat_temp.py line 54): a fresh frame with the same
contents.  Writes to the copy are modelled as producing new values that never
replace the caller's frame. -/
def DataFrame.copy (d : DataFrame) : DataFrame := d

/-- Column assignment of a numeric series on the engine's private copy. -/
def DataFrame.setNumCol (d : DataFrame) (name : ColName)
    (col : List (Option ℚ)) : DataFrame :=
  { d with numericCols := (name, col) :: d.numericCols }

/-- Column assignment of a boolean series on the engine's private copy. -/
def DataFrame.setBoolCol (d : DataFrame) (name : ColName)
    (col : List Bool) : DataFrame :=
  { d with boolCols := (name, col) :: d.boolCols }

/-- The whole moving-average column. -/
def maColumn (df : List Bar) (w : ℕ) : List (Option ℚ) :=
  (List.range df.length).map (ma df w)

/-- The whole ATR column. -/
def atrColumn (df : List Bar) (period : ℕ) : List (Option ℚ) :=
  (List.range df.length).map (calc_atr df period)

/-- The whole uptrend column. -/
def uptrendColumn (df : List Bar) (maF maS : ℕ) : List Bool :=
  (List.range df.length).map (uptrend df maF maS)

/-- strat_temp.py lines 53-106 with the caller's frame made explicit.  The
first statement rebinds the local name to `caller.copy`, and every column
assignment (lines 55-60) targets that copy, so the pair returned to the
caller holds the caller's frame unchanged next to the trade ledger.  Had the
source omitted the `.copy()`, the caller's binding would alias the enriched
frame and the first component would be the final shadowed `df` instead of
`caller`. -/
def run_backtest_frames (caller : DataFrame) (maF maS period : ℕ)
    (mult : ℚ) : DataFrame × List Trade :=
  let df := caller.copy
  let df := df.setNumCol ColName.ma_fast (maColumn df.bars maF)
  let df := df.setNumCol ColName.ma_slow (maColumn df.bars maS)
  let df := df.setNumCol ColName.atr (atrColumn df.bars period)
  let df := df.setBoolCol ColName.uptrend (uptrendColumn df.bars maF maS)
  (caller, run_backtest df.bars maF maS period mult)

/-! Helper lemmas about the loop. -/

theorem backtestState_zero (df : List Bar) (maF maS period : ℕ) (mult : ℚ) :
    backtestState df maF maS period mult 0 = initState := by
  simp [backtestState]

theorem backtestState_succ (df : List Bar) (maF maS period : ℕ) (mult : ℚ)
    (i : ℕ) :
    backtestState df maF maS period mult (i + 1) =
      if maS ≤ i ∧ i < df.length then
        processBar df maF maS period mult
          (backtestState df maF maS period mult i) i
      else backtestState df maF maS period mult i := by
  by_cases h : maS ≤ i ∧ i < df.length
  · rw [if_pos h]
    unfold backtestState
    have e1 : min (i + 1) df.length - maS = (min i df.length - maS) + 1 := by
      omega
    rw [e1, List.range'_1_concat, List.foldl_append]
    have e2 : maS + (min i df.length - maS) = i := by omega
    rw [e2]
    rfl
  · rw [if_neg h]
    unfold backtestState
    have e1 : min (i + 1) df.length - maS = min i df.length - maS := by omega
    rw [e1]

theorem processBar_flat (df : List Bar) (maF maS period : ℕ) (mult : ℚ)
    (s : EngineState) (i : ℕ) (h : s.position = none) :
    processBar df maF maS period mult s i =
      if entrySignal df maF maS i then
        { s with
            position := some
              ⟨(df.getD i default).date, (df.getD i default).close,
                (calc_atr df period i).map
                  (fun a => (df.getD i default).close - mult * a)⟩ }
      else s := by
  unfold processBar
  rw [h]

theorem processBar_long (df : List Bar) (maF maS period : ℕ) (mult : ℚ)
    (s : EngineState) (i : ℕ) (pos : Position) (h : s.position = some pos) :
    processBar df maF maS period mult s i =
      if stopHit (df.getD i default).low pos.stop_loss then
        { position := none
          trades := s.trades ++
            [mkTrade pos (df.getD i default).date (pos.stop_loss.getD 0) .stopLoss] }
      else if uptrend df maF maS (i - 1) && !uptrend df maF maS i then
        { position := none
          trades := s.trades ++
            [mkTrade pos (df.getD i default).date (df.getD i default).close .trendReversal] }
      else s := by
  unfold processBar
  rw [h]

/-- Induction principle over the loop: any property of the loop state that
holds initially, is stable under mere passage of the index, and is preserved
by `processBar` at every in-range index, holds at every stage. -/
theorem state_invariant_idx (df : List Bar) (maF maS period : ℕ) (mult : ℚ)
    (P : ℕ → EngineState → Prop)
    (h0 : P 0 initState)
    (hup : ∀ i s, P i s → P (i + 1) s)
    (hstep : ∀ s i, maS ≤ i → i < df.length → P i s →
      P (i + 1) (processBar df maF maS period mult s i)) :
    ∀ n, P n (backtestState df maF maS period mult n) := by
  intro n
  induction n with
  | zero => rw [backtestState_zero]; exact h0
  | succ k ih =>
      rw [backtestState_succ]
      by_cases h : maS ≤ k ∧ k < df.length
      · rw [if_pos h]
        exact hstep _ _ h.1 h.2 ih
      · rw [if_neg h]
        exact hup _ _ ih

/-- One step preserves the per-trade P&L formula: the only way a trade enters
the ledger is `mkTrade`, which computes `pnl_pct` from its own exit and entry
prices. -/
theorem processBar_trades_pnl (df : List Bar) (maF maS period : ℕ) (mult : ℚ)
    (s : EngineState) (i : ℕ)
    (hs : ∀ t ∈ s.trades,
      t.pnl_pct = (t.exit_price - t.entry_price) / t.entry_price * 100) :
    ∀ t ∈ (processBar df maF maS period mult s i).trades,
      t.pnl_pct = (t.exit_price - t.entry_price) / t.entry_price * 100 := by
  cases hp : s.position with
  | none =>
      rw [processBar_flat df maF maS period mult s i hp]
      split
      · exact hs
      · exact hs
  | some pos =>
      rw [processBar_long df maF maS period mult s i pos hp]
      split
      · intro t ht
        rcases List.mem_append.mp ht with h | h
        · exact hs t h
        · rw [List.mem_singleton] at h
          subst h
          simp [mkTrade]
      · split
        · intro t ht
          rcases List.mem_append.mp ht with h | h
          · exact hs t h
          · rw [List.mem_singleton] at h
            subst h
            simp [mkTrade]
        · exact hs

/-- The ordering invariant holds before the loop starts. -/
theorem orderInv_init (df : List Bar) : OrderInv df 0 initState := by
  refine ⟨?_, ?_, ?_, ?_⟩
  · intro t ht
    simp [initState] at ht
  · exact List.chain'_nil
  · intro t ht
    simp [initState] at ht
  · intro p hp
    simp [initState] at hp

/-- The ordering invariant only weakens as the index grows. -/
theorem orderInv_mono (df : List Bar) (i : ℕ) (s : EngineState)
    (h : OrderInv df i s) : OrderInv df (i + 1) s := by
  obtain ⟨ha, hb, hc, hd⟩ := h
  refine ⟨ha, hb, fun t ht j hj hjl => hc t ht j (by omega) hjl, ?_⟩
  intro p hp
  obtain ⟨h1, h2⟩ := hd p hp
  exact ⟨fun j hj hjl => h1 j (by omega) hjl, h2⟩

/-- Processing one in-range bar preserves the ordering invariant, provided
the input dates are strictly increasing. -/
theorem orderInv_step (df : List Bar) (maF maS period : ℕ) (mult : ℚ)
    (hmono : DatesStrictMono df) (s : EngineState) (i : ℕ)
    (hin : maS ≤ i) (hlen : i < df.length) (h : OrderInv df i s) :
    OrderInv df (i + 1) (processBar df maF maS period mult s i) := by
  obtain ⟨ha, hb, hc, hd⟩ := h
  cases hp : s.position with
  | none =>
      rw [processBar_flat df maF maS period mult s i hp]
      split
      · refine ⟨ha, hb, ?_, ?_⟩
        · intro t ht j hj hjl
          exact hc t ht j (by omega) hjl
        · intro p hpeq
          have heq : some (⟨(df.getD i default).date, (df.getD i default).close,
              (calc_atr df period i).map
                (fun a => (df.getD i default).close - mult * a)⟩ : Position) =
              some p := hpeq
          obtain rfl := Option.some.inj heq
          refine ⟨?_, ?_⟩
          · intro j hj hjl
            exact hmono j hjl i (by omega)
          · intro t ht
            exact hc t ht i (le_refl i) hlen
      · refine ⟨ha, hb, ?_, ?_⟩
        · intro t ht j hj hjl
          exact hc t ht j (by omega) hjl
        · intro p hpeq
          obtain ⟨h1, h2⟩ := hd p hpeq
          exact ⟨fun j hj hjl => h1 j (by omega) hjl, h2⟩
  | some pos =>
      obtain ⟨hd1, hd2⟩ := hd pos hp
      rw [processBar_long df maF maS period mult s i pos hp]
      split
      · refine ⟨?_, ?_, ?_, ?_⟩
        · intro t ht
          rcases List.mem_append.mp ht with hm | hm
          · exact ha t hm
          · rw [List.mem_singleton] at hm
            subst hm
            exact hd1 i (le_refl i) hlen
        · rw [List.chain'_append]
          refine ⟨hb, List.chain'_singleton _, ?_⟩
          intro x hx y hy
          rw [List.head?_cons] at hy
          simp only [Option.mem_def, Option.some.injEq] at hy
          subst hy
          exact hd2 x (List.mem_of_getLast?_eq_some (Option.mem_def.mp hx))
        · intro t ht j hj hjl
          rcases List.mem_append.mp ht with hm | hm
          · exact hc t hm j (by omega) hjl
          · rw [List.mem_singleton] at hm
            subst hm
            exact hmono j hjl i (by omega)
        · intro p hpeq
          exact Option.noConfusion hpeq
      · split
        · refine ⟨?_, ?_, ?_, ?_⟩
          · intro t ht
            rcases List.mem_append.mp ht with hm | hm
            · exact ha t hm
            · rw [List.mem_singleton] at hm
              subst hm
              exact hd1 i (le_refl i) hlen
          · rw [List.chain'_append]
            refine ⟨hb, List.chain'_singleton _, ?_⟩
            intro x hx y hy
            rw [List.head?_cons] at hy
            simp only [Option.mem_def, Option.some.injEq] at hy
            subst hy
            exact hd2 x (List.mem_of_getLast?_eq_some (Option.mem_def.mp hx))
          · intro t ht j hj hjl
            rcases List.mem_append.mp ht with hm | hm
            · exact hc t hm j (by omega) hjl
            · rw [List.mem_singleton] at hm
              subst hm
              exact hmono j hjl i (by omega)
          · intro p hpeq
            exact Option.noConfusion hpeq
        · refine ⟨ha, hb, ?_, ?_⟩
          · intro t ht j hj hjl
            exact hc t ht j (by omega) hjl
          · intro p hpeq
            obtain ⟨h1, h2⟩ := hd p hpeq
            exact ⟨fun j hj hjl => h1 j (by omega) hjl, h2⟩

/-- The ordering invariant holds at every loop stage. -/
theorem orderInv_holds (df : List Bar) (maF maS period : ℕ) (mult : ℚ)
    (hmono : DatesStrictMono df) (n : ℕ) :
    OrderInv df n (backtestState df maF maS period mult n) :=
  state_invariant_idx df maF maS period mult (OrderInv df)
    (orderInv_init df) (orderInv_mono df)
    (fun s i hin hlen h =>
      orderInv_step df maF maS period mult hmono s i hin hlen h) n

/-- At every loop stage the ledger holds exactly one trade per close
transition among the bars processed so far. -/
theorem trades_count (df : List Bar) (maF maS period : ℕ) (mult : ℚ) :
    ∀ n, (backtestState df maF maS period mult n).trades.length =
      ((List.range' maS (min n df.length - maS)).filter
        (closesAt df maF maS period mult)).length := by
  intro n
  induction n with
  | zero =>
      have e : min 0 df.length - maS = 0 := by omega
      rw [e, backtestState_zero]
      rfl
  | succ k ih =>
      by_cases h : maS ≤ k ∧ k < df.length
      · have e1 : min (k + 1) df.length - maS = (min k df.length - maS) + 1 := by
          omega
        have e2 : maS + (min k df.length - maS) = k := by omega
        rw [e1, List.range'_1_concat, e2, List.filter_append,
          List.length_append]
        cases hp : (backtestState df maF maS period mult k).position with
        | none =>
            have hcl : closesAt df maF maS period mult k = false := by
              unfold closesAt
              rw [hp]
              rfl
            have hfil : (List.filter (closesAt df maF maS period mult) [k]).length = 0 := by
              simp [List.filter, hcl]
            rw [hfil, Nat.add_zero, backtestState_succ, if_pos h,
              processBar_flat df maF maS period mult _ k hp]
            split
            · exact ih
            · exact ih
        | some pos =>
            by_cases hstop : stopHit (df.getD k default).low pos.stop_loss = true
            · have hnext : (backtestState df maF maS period mult (k + 1)).position = none := by
                rw [backtestState_succ, if_pos h,
                  processBar_long df maF maS period mult _ k pos hp, if_pos hstop]
              have hcl : closesAt df maF maS period mult k = true := by
                unfold closesAt
                rw [hp, hnext]
                rfl
              have hfil : (List.filter (closesAt df maF maS period mult) [k]).length = 1 := by
                simp [List.filter, hcl]
              rw [hfil, backtestState_succ, if_pos h,
                processBar_long df maF maS period mult _ k pos hp, if_pos hstop]
              show ((backtestState df maF maS period mult k).trades ++ [_]).length = _
              rw [List.length_append]
              rw [ih]
              rfl
            · by_cases hrev : (uptrend df maF maS (k - 1) && !uptrend df maF maS k) = true
              · have hnext : (backtestState df maF maS period mult (k + 1)).position = none := by
                  rw [backtestState_succ, if_pos h,
                    processBar_long df maF maS period mult _ k pos hp,
                    if_neg hstop, if_pos hrev]
                have hcl : closesAt df maF maS period mult k = true := by
                  unfold closesAt
                  rw [hp, hnext]
                  rfl
                have hfil : (List.filter (closesAt df maF maS period mult) [k]).length = 1 := by
                  simp [List.filter, hcl]
                rw [hfil, backtestState_succ, if_pos h,
                  processBar_long df maF maS period mult _ k pos hp,
                  if_neg hstop, if_pos hrev]
                show ((backtestState df maF maS period mult k).trades ++ [_]).length = _
                rw [List.length_append]
                rw [ih]
                rfl
              · have hnext : (backtestState df maF maS period mult (k + 1)).position = some pos := by
                  rw [backtestState_succ, if_pos h,
                    processBar_long df maF maS period mult _ k pos hp,
                    if_neg hstop, if_neg hrev]
                  exact hp
                have hcl : closesAt df maF maS period mult k = false := by
                  unfold closesAt
                  rw [hp, hnext]
                  rfl
                have hfil : (List.filter (closesAt df maF maS period mult) [k]).length = 0 := by
                  simp [List.filter, hcl]
                rw [hfil, Nat.add_zero, backtestState_succ, if_pos h,
                  processBar_long df maF maS period mult _ k pos hp,
                  if_neg hstop, if_neg hrev]
                exact ih
      · have e1 : min (k + 1) df.length - maS = min k df.length - maS := by omega
        rw [e1, backtestState_succ, if_neg h]
        exact ih

/-- Claim C1: with the loop state flat at bar `i`, a position is opened at
bar `i` iff `i` is in the loop range (so never below `ma_slow`), the uptrend
flag holds at `i` (`ma_fast > ma_slow`, NaN comparing false) and the close
crossed above the fast MA (`close[i-1] ≤ ma_fast[i-1]` and
`ma_fast[i-1] < close[i]`); the opened position records
`entry_date = date[i]`, `entry_price = close[i]` and
`stop_loss = close[i] - atr_multiplier * atr[i]` (NaN ATR giving a NaN
stop).  From a non-flat state no fresh position ever appears.  The
`1 ≤ ma_slow` hypothesis keeps the embedding inside the regime where the
previous-row lookup `df.iloc[i-1]` matches `i - 1` (the spec requires a
positive `slow_window` anyway). -/
theorem entry_characterization (df : List Bar) (maF maS period : ℕ) (mult : ℚ)
    (i : ℕ) (hmaS : 1 ≤ maS) :
    ((backtestState df maF maS period mult i).position = none →
      (((backtestState df maF maS period mult (i + 1)).position.isSome = true) ↔
        (maS ≤ i ∧ i < df.length ∧ uptrend df maF maS i = true ∧
          crossAbove df maF i = true)) ∧
      ((backtestState df maF maS period mult (i + 1)).position.isSome = true →
        (backtestState df maF maS period mult (i + 1)).position =
          some ⟨(df.getD i default).date, (df.getD i default).close,
            (calc_atr df period i).map
              (fun a => (df.getD i default).close - mult * a)⟩)) ∧
    (∀ pos, (backtestState df maF maS period mult i).position = some pos →
      (backtestState df maF maS period mult (i + 1)).position = some pos ∨
      (backtestState df maF maS period mult (i + 1)).position = none) := by
  constructor
  · intro hflat
    rw [backtestState_succ]
    by_cases h : maS ≤ i ∧ i < df.length
    · rw [if_pos h, processBar_flat df maF maS period mult _ i hflat]
      by_cases hsig : entrySignal df maF maS i = true
      · rw [if_pos hsig]
        have hsig' := hsig
        unfold entrySignal at hsig'
        rw [Bool.and_eq_true] at hsig'
        exact ⟨iff_of_true rfl ⟨h.1, h.2, hsig'.1, hsig'.2⟩, fun _ => rfl⟩
      · rw [if_neg hsig]
        rw [hflat]
        refine ⟨?_, ?_⟩
        · constructor
          · intro hc
            exact absurd hc (by decide)
          · rintro ⟨-, -, hup, hcr⟩
            exact absurd (by unfold entrySignal; rw [hup, hcr]; rfl) hsig
        · intro hc
          exact absurd hc (by decide)
    · rw [if_neg h, hflat]
      refine ⟨?_, ?_⟩
      · constructor
        · intro hc
          exact absurd hc (by decide)
        · rintro ⟨h1, h2, -, -⟩
          exact absurd ⟨h1, h2⟩ h
      · intro hc
        exact absurd hc (by decide)
  · intro pos hpos
    rw [backtestState_succ]
    by_cases h : maS ≤ i ∧ i < df.length
    · rw [if_pos h, processBar_long df maF maS period mult _ i pos hpos]
      by_cases h1 : stopHit (df.getD i default).low pos.stop_loss = true
      · rw [if_pos h1]
        right
        rfl
      · rw [if_neg h1]
        by_cases h2 : (uptrend df maF maS (i - 1) && !uptrend df maF maS i) = true
        · rw [if_pos h2]
          right
          rfl
        · rw [if_neg h2]
          left
          exact hpos
    · rw [if_neg h]
      left
      exact hpos

/-- Witness for C1: on `dfRev` with windows 1/2, the flat state at bar 2
opens a position, and that position carries bar 2's date, close and
ATR-derived stop. -/
theorem entry_characterization_witness :
    (backtestState dfRev 1 2 1 2 3).position.isSome = true ∧
    (backtestState dfRev 1 2 1 2 3).position =
      some ⟨(dfRev.getD 2 default).date, (dfRev.getD 2 default).close,
        (calc_atr dfRev 1 2).map (fun a => (dfRev.getD 2 default).close - 2 * a)⟩ := by
  have h := (entry_characterization dfRev 1 2 1 2 2 (by decide)).1 (by decide)
  have h1 : (backtestState dfRev 1 2 1 2 3).position.isSome = true :=
    h.1.mpr ⟨by decide, by decide, by decide, by decide⟩
  exact ⟨h1, h.2 h1⟩

/-- Claim C2: with a position open at an in-range bar `i`, the exit decision
has stop-loss priority: if `low[i] ≤ stop_loss` the position closes with a
trade whose exit price is exactly the stored stop level (reason stop-loss),
regardless of whether the trend also reversed; otherwise, if the uptrend
flag flips from bar `i-1` to bar `i`, it closes at `close[i]` (reason trend
reversal); otherwise the state is unchanged. -/
theorem exit_priority (df : List Bar) (maF maS period : ℕ) (mult : ℚ)
    (i : ℕ) (pos : Position) (hmaS : 1 ≤ maS)
    (hin : maS ≤ i) (hlen : i < df.length)
    (hpos : (backtestState df maF maS period mult i).position = some pos) :
    (∀ sl, pos.stop_loss = some sl → (df.getD i default).low ≤ sl →
      (backtestState df maF maS period mult (i + 1)).position = none ∧
      (backtestState df maF maS period mult (i + 1)).trades =
        (backtestState df maF maS period mult i).trades ++
          [mkTrade pos (df.getD i default).date sl .stopLoss]) ∧
    (stopHit (df.getD i default).low pos.stop_loss = false →
      uptrend df maF maS (i - 1) = true → uptrend df maF maS i = false →
      (backtestState df maF maS period mult (i + 1)).position = none ∧
      (backtestState df maF maS period mult (i + 1)).trades =
        (backtestState df maF maS period mult i).trades ++
          [mkTrade pos (df.getD i default).date (df.getD i default).close
            .trendReversal]) ∧
    (stopHit (df.getD i default).low pos.stop_loss = false →
      (uptrend df maF maS (i - 1) && !uptrend df maF maS i) = false →
      backtestState df maF maS period mult (i + 1) =
        backtestState df maF maS period mult i) := by
  rw [backtestState_succ, if_pos ⟨hin, hlen⟩,
    processBar_long df maF maS period mult _ i pos hpos]
  refine ⟨?_, ?_, ?_⟩
  · intro sl hsl hlow
    have hhit : stopHit (df.getD i default).low pos.stop_loss = true := by
      rw [hsl]
      exact decide_eq_true hlow
    rw [if_pos hhit, hsl]
    exact ⟨rfl, rfl⟩
  · intro hnh hup hdn
    rw [hnh, if_neg (by decide), hup, hdn, if_pos (by decide)]
    exact ⟨rfl, rfl⟩
  · intro hnh hboth
    rw [hnh, if_neg (by decide), hboth, if_neg (by decide)]

/-- Witness for C2: on `dfStop`, bar 3 satisfies both the stop-loss and the
trend-reversal conditions, and the recorded trade exits at exactly the stop
level 90 with reason stop-loss. -/
theorem exit_priority_witness :
    (backtestState dfStop 1 2 1 2 4).position = none ∧
    (backtestState dfStop 1 2 1 2 4).trades =
      (backtestState dfStop 1 2 1 2 3).trades ++
        [mkTrade ⟨2, 110, some 90⟩ (dfStop.getD 3 default).date 90 .stopLoss] := by
  have h := exit_priority dfStop 1 2 1 2 3 ⟨2, 110, some 90⟩
    (by decide) (by decide) (by decide) (by decide)
  exact h.1 90 rfl (by decide)

/-- Claim C3: when the iteration ends with a position still open, the
returned ledger has no record of it — every recorded trade both entered and
exited strictly before the open position's entry date — and the ledger holds
exactly one trade per position that was opened and then closed during
iteration (one per close transition of the loop). -/
theorem open_position_not_recorded (df : List Bar) (maF maS period : ℕ)
    (mult : ℚ) (p : Position) (hmaS : 1 ≤ maS) (hmono : DatesStrictMono df)
    (hopen : (backtestState df maF maS period mult df.length).position = some p) :
    (∀ t ∈ run_backtest df maF maS period mult,
      t.entry_date < p.entry_date ∧ t.exit_date < p.entry_date) ∧
    (run_backtest df maF maS period mult).length =
      ((List.range' maS (df.length - maS)).filter
        (closesAt df maF maS period mult)).length := by
  constructor
  · intro t ht
    have h := orderInv_holds df maF maS period mult hmono df.length
    have h2 := (h.2.2.2 p hopen).2 t ht
    exact ⟨lt_trans (h.1 t ht) h2, h2⟩
  · have h := trades_count df maF maS period mult df.length
    rwa [min_self] at h

/-- Witness for C3: `dfOpen` ends right after the entry at bar 2; the run
leaves that position open (entry date 2) and returns a ledger with no record
of it. -/
theorem open_position_not_recorded_witness :
    (∀ t ∈ run_backtest dfOpen 1 2 1 2,
      t.entry_date < (2 : ℤ) ∧ t.exit_date < (2 : ℤ)) ∧
    (run_backtest dfOpen 1 2 1 2).length =
      ((List.range' 2 (dfOpen.length - 2)).filter
        (closesAt dfOpen 1 2 1 2)).length :=
  open_position_not_recorded dfOpen 1 2 1 2 ⟨2, 110, some 90⟩
    (by decide) (by decide) (by decide)

/-- Claim C4: a bar sequence shorter than `ma_slow` (the empty sequence
included) yields an empty trade ledger — the loop body never runs, and the
call does not fail (the function is total). -/
theorem short_input_empty_ledger (df : List Bar) (maF maS period : ℕ)
    (mult : ℚ) (h : df.length < maS) :
    run_backtest df maF maS period mult = [] := by
  unfold run_backtest backtestState
  have e : min df.length df.length - maS = 0 := by omega
  rw [e]
  rfl

/-- Witness for C4: the empty sequence and a three-bar sequence, both below
the default `ma_slow = 20`, produce empty ledgers. -/
theorem short_input_empty_ledger_witness :
    run_backtest [] 5 20 14 2 = [] ∧ run_backtest dfOpen 5 20 14 2 = [] :=
  ⟨short_input_empty_ledger [] 5 20 14 2 (by decide),
   short_input_empty_ledger dfOpen 5 20 14 2 (by decide)⟩

/-- Claim C5: every trade in the returned ledger satisfies
`pnl_pct = (exit_price - entry_price) / entry_price * 100`; the claim's
numeric instances (entry 100, exit 110 giving 10; exit 90 giving −10) are
instances of this formula. -/
theorem pnl_pct_formula (df : List Bar) (maF maS period : ℕ) (mult : ℚ)
    (t : Trade) (ht : t ∈ run_backtest df maF maS period mult) :
    t.pnl_pct = (t.exit_price - t.entry_price) / t.entry_price * 100 := by
  have h := state_invariant_idx df maF maS period mult
    (fun _ s => ∀ u ∈ s.trades,
      u.pnl_pct = (u.exit_price - u.entry_price) / u.entry_price * 100)
    (by intro u hu; simp [initState] at hu)
    (fun _ _ h => h)
    (fun s i _ _ h => processBar_trades_pnl df maF maS period mult s i h)
    df.length
  exact h t ht

/-- Witness for C5: the single trade that `dfRev` produces (entry 110, exit
99) satisfies the P&L formula, with `pnl_pct = -10`. -/
theorem pnl_pct_formula_witness :
    (⟨2, 110, 3, 99, -10, .trendReversal⟩ : Trade).pnl_pct =
      (((⟨2, 110, 3, 99, -10, .trendReversal⟩ : Trade).exit_price -
        (⟨2, 110, 3, 99, -10, .trendReversal⟩ : Trade).entry_price) /
        (⟨2, 110, 3, 99, -10, .trendReversal⟩ : Trade).entry_price) * 100 :=
  pnl_pct_formula dfRev 1 2 1 2 _ (by decide)

/-- Counterexample to claim C6 as stated: a bar sequence of length 1 with
`period = 2 ≥ 1` has `atr[0]` undefined (NaN) rather than equal to
`high[0] - low[0]` (which is 6 here): the rolling mean needs `period`
true-range values before it produces one. -/
theorem atr_single_bar_period_two :
    dfSingle.length = 1 ∧ (1 : ℕ) ≤ 2 ∧
    calc_atr dfSingle 2 0 = none ∧
    calc_atr dfSingle 2 0 ≠
      some ((dfSingle.getD 0 default).high - (dfSingle.getD 0 default).low) := by
  decide

/-- Claim C6 as amended: the true range at the very first bar is
`high[0] - low[0]` only (the missing previous close produces no spurious
value), and a length-1 sequence yields `atr[0] = high[0] - low[0]` for
`period = 1`, while for every `period ≥ 2` the ATR at bar 0 is still in its
warm-up and is undefined — never a missing-previous-close artifact. -/
theorem atr_first_bar (df : List Bar) (h1 : df.length = 1) :
    true_range df 0 = (df.getD 0 default).high - (df.getD 0 default).low ∧
    calc_atr df 1 0 = some ((df.getD 0 default).high - (df.getD 0 default).low) ∧
    ∀ period, 2 ≤ period → calc_atr df period 0 = none := by
  refine ⟨rfl, ?_, ?_⟩
  · have htr : trSeries df = [true_range df 0] := by
      unfold trSeries
      rw [h1]
      rfl
    unfold calc_atr rollingMean
    rw [htr]
    rw [if_pos ⟨le_refl 1, le_refl 1, by simp⟩]
    simp [true_range]
  · intro period hp
    unfold calc_atr rollingMean
    rw [if_neg]
    rintro ⟨-, h2, -⟩
    omega

/-- Witness for C6 (amended): on the one-bar `dfSingle`, the true range at
bar 0 is `high - low` and so is the period-1 ATR. -/
theorem atr_first_bar_witness :
    true_range dfSingle 0 =
      (dfSingle.getD 0 default).high - (dfSingle.getD 0 default).low ∧
    calc_atr dfSingle 1 0 =
      some ((dfSingle.getD 0 default).high - (dfSingle.getD 0 default).low) := by
  have h := atr_first_bar dfSingle rfl
  exact ⟨h.1, h.2.1⟩

/-- Counterexample to claim C7 as stated: zero windows and a zero ATR period
are non-positive, yet the call is not rejected — pandas accepts a zero
rolling window, the loop runs over all bars, and the call returns an
ordinary (here empty) ledger. -/
theorem zero_window_not_rejected :
    run_backtest_checked dfRev 0 0 0 2 = .ok [] := by
  rfl

/-- Claim C7 as amended: a negative `ma_fast`, `ma_slow` or `atr_period`
makes the call fail before any iteration over bars begins (pandas `rolling`
raises `ValueError` while the indicator columns are being computed); zero is
not rejected. -/
theorem negative_params_rejected (df : List Bar) (maF maS period : ℤ)
    (mult : ℚ) (h : maF < 0 ∨ maS < 0 ∨ period < 0) :
    run_backtest_checked df maF maS period mult = .error .windowNegative := by
  unfold run_backtest_checked
  rw [if_pos h]

/-- Witness for C7 (amended): `ma_fast = -1` is rejected before iteration. -/
theorem negative_params_rejected_witness :
    run_backtest_checked dfRev (-1) 20 14 2 = .error .windowNegative :=
  negative_params_rejected dfRev (-1) 20 14 2 (Or.inl (by decide))

/-- Claim C8, evaluating the code at the failing point: the event-driven
engine's defaults are `ma_fast = 5`, `ma_slow = 20`, `atr_period = 14`,
`atr_multiplier = 2.0` — not the 20/60/14/2.0 the claim states, which are
the defaults of the vectorised variant in vbt.py (and what strat_temp.py's
own module docstring, MA20 over MA60, describes). -/
theorem default_params_eval :
    default_ma_fast = 5 ∧ default_ma_slow = 20 ∧
    default_atr_period = 14 ∧ default_atr_multiplier = 2 ∧
    Vbt.default_ma_fast = 20 ∧ Vbt.default_ma_slow = 60 ∧
    Vbt.default_atr_period = 14 ∧ Vbt.default_atr_multiplier = 2 :=
  ⟨rfl, rfl, rfl, rfl, rfl, rfl, rfl, rfl⟩

/-- Claim C9: with strictly increasing input dates, every emitted trade
exits strictly after it enters (exits are never evaluated on the entry bar)
and consecutive trades do not overlap: each trade's exit date strictly
precedes the next trade's entry date (no re-entry on an exit bar). -/
theorem trades_ordered (df : List Bar) (maF maS period : ℕ) (mult : ℚ)
    (hmaS : 1 ≤ maS) (hmono : DatesStrictMono df) :
    (∀ t ∈ run_backtest df maF maS period mult, t.entry_date < t.exit_date) ∧
    List.Chain' (fun a b => a.exit_date < b.entry_date)
      (run_backtest df maF maS period mult) := by
  have h := orderInv_holds df maF maS period mult hmono df.length
  exact ⟨h.1, h.2.1⟩

/-- Witness for C9: the ledger `dfRev` produces is ordered. -/
theorem trades_ordered_witness :
    (∀ t ∈ run_backtest dfRev 1 2 1 2, t.entry_date < t.exit_date) ∧
    List.Chain' (fun a b => a.exit_date < b.entry_date)
      (run_backtest dfRev 1 2 1 2) :=
  trades_ordered dfRev 1 2 1 2 (by decide) (by decide)

/-- Claim C10: `run_backtest` never mutates the caller's input frame — the
first statement copies it and all column writes target the copy, so the
caller-visible frame after the call equals the frame before it, while the
ledger is the one computed from the caller's bars. -/
theorem input_frame_preserved (d : DataFrame) (maF maS period : ℕ)
    (mult : ℚ) :
    (run_backtest_frames d maF maS period mult).1 = d ∧
    (run_backtest_frames d maF maS period mult).2 =
      run_backtest d.bars maF maS period mult :=
  ⟨rfl, rfl⟩

end StockFuture
